import Mathlib

/-!
Verification of the AskURL retrieval-augmented QA pipeline.

The development shallowly embeds the two service classes of the
repository, `DocumentProcessor` (src/utils/document_processor.py) and
`QAChain` (src/utils/qa_chain.py), together with the configuration
constants of src/config.py.  External collaborators that the repository
only calls (the URL loader, the text splitter, the FAISS store and the
language model) are modelled from the specification; each such
definition carries a doc comment saying so.
-/

namespace AskURL

/-! ### Configuration constants (src/config.py) -/

/-- Configured chunk size (src/config.py, `CHUNK_SIZE = 1000`). -/
def CHUNK_SIZE : Nat := 1000

/-- Configured chunk overlap (src/config.py, `CHUNK_OVERLAP = 200`). -/
def CHUNK_OVERLAP : Nat := 200

/-- Configured retrieval fan-out (src/config.py, `RETRIEVAL_K = 3`). -/
def RETRIEVAL_K : Nat := 3

/-- Configured persistence path (src/config.py,
`FAISS_INDEX_PATH = "faiss_store_openai.pkl"`). -/
def FAISS_INDEX_PATH : String := "faiss_store_openai.pkl"

/-! ### Python string replacement

The three persistence operations all compute their default path as
`FAISS_INDEX_PATH.replace('.pkl', '')`.  Python's `str.replace` replaces
every non-overlapping occurrence of the pattern, scanning left to
right; `replaceAll` reproduces that on character lists. -/

/-- Replace every non-overlapping occurrence of `pat` by `repl`,
scanning left to right (the semantics of Python `str.replace` for a
non-empty pattern).  The fuel argument only bounds the recursion depth;
it is initialised to the input length, which suffices because every
step consumes at least one character. -/
def replaceAll (pat repl : List Char) : Nat → List Char → List Char
  | _, [] => []
  | 0, l => l
  | fuel + 1, c :: rest =>
    if pat ≠ [] ∧ pat.isPrefixOf (c :: rest) then
      repl ++ replaceAll pat repl fuel ((c :: rest).drop pat.length)
    else
      c :: replaceAll pat repl fuel rest

/-- Python `s.replace(pat, repl)` on strings, for a non-empty pattern
(the empty-pattern case never occurs in this repository). -/
def pyReplace (s pat repl : String) : String :=
  String.mk (replaceAll pat.data repl.data s.data.length s.data)

/-! ### Data model -/

/-- A document: raw page content plus the `source` metadata entry (the
originating URL) when present.  Chunks produced by splitting are
`Document`s as well, carrying the parent document's metadata. -/
structure Document where
  page_content : String
  source : Option String
deriving DecidableEq

/-- Modelled from the spec: an Index maps each chunk's embedding vector
to the chunk's text and metadata (spec §3); FAISS itself is an external
library.  Embedding vectors are integer lists. -/
structure Index where
  entries : List (List Int × Document)
deriving DecidableEq

/-- Squared L2 distance between two embedding vectors. -/
def sqDist (u v : List Int) : Int :=
  ((u.zip v).map (fun p => (p.1 - p.2) * (p.1 - p.2))).foldl (· + ·) 0

/-- Insert a scored entry into a list sorted by ascending score,
after any entries with an equal score (stable insertion). -/
def insertByScore (x : Int × Document) : List (Int × Document) → List (Int × Document)
  | [] => [x]
  | y :: ys => if y.1 ≤ x.1 then y :: insertByScore x ys else x :: y :: ys

/-- Stable insertion sort by ascending score. -/
def sortByScore : List (Int × Document) → List (Int × Document)
  | [] => []
  | x :: xs => insertByScore x (sortByScore xs)

/-- Modelled from the spec: nearest-neighbor retrieval over the Index —
the `k` chunks whose stored vectors are closest to the query vector,
closest first (spec §4.2 `retrieve`); deterministic for a fixed Index. -/
def similarity_search (idx : Index) (qv : List Int) (k : Nat) : List Document :=
  ((sortByScore (idx.entries.map (fun e => (sqDist qv e.1, e.2)))).map Prod.snd).take k

/-! ### Filesystem model

Paths are component lists; a directory at `p` containing a file `f`
is modelled by an entry at `p ++ [f]`. -/

/-- Content of a regular file: one of the two FAISS artifacts, or
anything else. -/
inductive FileData where
  | faissVectors (vectors : List (List Int))
  | docstore (docs : List Document)
  | blob
deriving DecidableEq

/-- A filesystem entry: a regular file or a directory. -/
inductive FSEntry where
  | file (data : FileData)
  | dir
deriving DecidableEq

/-- A filesystem path, as a list of components. -/
abbrev FsPath := List String

/-- A filesystem: a partial map from paths to entries. -/
def FileSystem := FsPath → Option FSEntry

/-- Python `os.path.exists`. -/
def os_path_exists (fs : FileSystem) (p : FsPath) : Bool :=
  (fs p).isSome

/-- Python `os.path.isdir`. -/
def os_path_isdir (fs : FileSystem) (p : FsPath) : Bool :=
  match fs p with
  | some FSEntry.dir => true
  | _ => false

/-- Modelled from the spec: `FAISS.save_local` persists the Index at a
path as two artifacts — the vector-similarity structure `index.faiss`
and the metadata/text store `index.pkl` — inside a directory at that
path (spec §6 "Persisted state"). -/
def faiss_save_local (fs : FileSystem) (idx : Index) (p : FsPath) : FileSystem :=
  fun q =>
    if q = p then some FSEntry.dir
    else if q = p ++ ["index.faiss"] then
      some (FSEntry.file (FileData.faissVectors (idx.entries.map Prod.fst)))
    else if q = p ++ ["index.pkl"] then
      some (FSEntry.file (FileData.docstore (idx.entries.map Prod.snd)))
    else fs q

/-- Error raised when loading a corrupt or unreadable index. -/
inductive LoadError where
  | corruptIndex
deriving DecidableEq

/-- Modelled from the spec: `FAISS.load_local` reads both artifacts back
together and reconstructs the Index; a missing or malformed artifact is
an error (spec §6, §7(d): corrupt index raised as an error). -/
def faiss_load_local (fs : FileSystem) (p : FsPath) : Except LoadError Index :=
  match fs (p ++ ["index.faiss"]), fs (p ++ ["index.pkl"]) with
  | some (FSEntry.file (FileData.faissVectors vs)),
    some (FSEntry.file (FileData.docstore ds)) => Except.ok ⟨vs.zip ds⟩
  | _, _ => Except.error LoadError.corruptIndex

/-! ### DocumentProcessor (src/utils/document_processor.py) -/

/-- Error raised by the URL loader. -/
inductive FetchError where
  | urlFailure (url : String)
deriving DecidableEq

/-- `DocumentProcessor.load_urls`: builds an `UnstructuredURLLoader`
over the whole batch of URLs and returns its `load()` result unchanged.
The loader itself is external; its one-batch-call behaviour (may raise
on an unreachable or unparseable URL, spec §4.1/§6) is the `fetch`
parameter. -/
def load_urls (fetch : List String → Except FetchError (List Document))
    (urls : List String) : Except FetchError (List Document) :=
  fetch urls

/-- Modelled from the spec: the text splitter cuts a character list into
chunks of at most `S` characters such that consecutive chunks overlap in
exactly `O` characters (spec §4.1 `splitDocuments`, §8); the final chunk
may be shorter.  The actual splitter is the external
`RecursiveCharacterTextSplitter`.  The `S ≤ O` guard only makes the
recursion total; the configuration always has `O < S`. -/
def splitChunks (S O : Nat) (l : List Char) : List (List Char) :=
  if l.length ≤ S ∨ S ≤ O then [l]
  else l.take S :: splitChunks S O (l.drop (S - O))
  termination_by l.length
  decreasing_by
    simp only [List.length_drop]
    omega

/-- Number of chunks `splitChunks S O` produces from input length `L`. -/
def chunkCount (S O L : Nat) : Nat :=
  if L ≤ S ∨ S ≤ O then 1
  else 1 + chunkCount S O (L - (S - O))
  termination_by L
  decreasing_by omega

/-- Split one text into chunk strings. -/
def split_text (S O : Nat) (s : String) : List String :=
  (splitChunks S O s.data).map String.mk

/-- `DocumentProcessor.split_documents`: split every document's text at
the configured size and overlap, each chunk carrying its parent
document's metadata. -/
def split_documents (documents : List Document) : List Document :=
  (documents.map (fun doc =>
    (split_text CHUNK_SIZE CHUNK_OVERLAP doc.page_content).map
      (fun t => Document.mk t doc.source))).flatten

/-- `DocumentProcessor.create_vectorstore`: build the Index from the
chunks, one embedding vector per chunk (`FAISS.from_documents`; the
embedding provider is the external `embed` parameter). -/
def create_vectorstore (embed : String → List Int) (documents : List Document) :
    Index :=
  ⟨documents.map (fun d => (embed d.page_content, d))⟩

/-- `DocumentProcessor.save_vectorstore`: resolve the default path as
`FAISS_INDEX_PATH.replace('.pkl', '')` and save with FAISS's native
`save_local`. -/
def save_vectorstore (fs : FileSystem) (vectorstore : Index)
    (file_path : Option FsPath) : FileSystem :=
  let p := file_path.getD [pyReplace FAISS_INDEX_PATH ".pkl" ""]
  faiss_save_local fs vectorstore p

/-- `DocumentProcessor.index_exists`: resolve the default path the same
way, then report `os.path.exists(file_path) and os.path.isdir(file_path)`. -/
def index_exists (fs : FileSystem) (file_path : Option FsPath) : Bool :=
  let p := file_path.getD [pyReplace FAISS_INDEX_PATH ".pkl" ""]
  os_path_exists fs p && os_path_isdir fs p

/-- `DocumentProcessor.load_vectorstore`: resolve the default path the
same way; when `index_exists` holds at the resolved path, load with
FAISS's native `load_local` (propagating its error), otherwise return
the absent result `none`. -/
def load_vectorstore (fs : FileSystem) (file_path : Option FsPath) :
    Except LoadError (Option Index) :=
  let p := file_path.getD [pyReplace FAISS_INDEX_PATH ".pkl" ""]
  if index_exists fs (some p) then
    match faiss_load_local fs p with
    | Except.ok v => Except.ok (some v)
    | Except.error e => Except.error e
  else Except.ok none

/-- `DocumentProcessor.process_urls`: load the documents, split them
into chunks, build the vector store from the chunks, save it when
`save_index` is set, and return the store together with the document
and chunk counts.  The resulting filesystem is returned explicitly. -/
def process_urls (fetch : List String → Except FetchError (List Document))
    (embed : String → List Int) (fs : FileSystem) (urls : List String)
    (save_index : Bool) : Except FetchError ((Index × Nat × Nat) × FileSystem) :=
  match load_urls fetch urls with
  | Except.error e => Except.error e
  | Except.ok documents =>
    let num_documents := documents.length
    let chunks := split_documents documents
    let num_chunks := chunks.length
    let vectorstore := create_vectorstore embed chunks
    let fs2 := if save_index then save_vectorstore fs vectorstore none else fs
    Except.ok ((vectorstore, num_documents, num_chunks), fs2)

/-! ### QAChain (src/utils/qa_chain.py)

The chain's external collaborators are the embedding model used by the
retriever and the language model; both are fields of `QAChain`.  Every
operation threads an explicit counter of retriever invocations, so that
how often the nearest-neighbor query runs is part of the model. -/

/-- The QA chain state: the held vector store, the embedding model
behind `vectorstore.as_retriever(search_kwargs={"k": RETRIEVAL_K})`,
and the language model `llm` applied to the formatted context and the
question (both external collaborators, modelled from the spec §6). -/
structure QAChain where
  vectorstore : Index
  embed : String → List Int
  llm : String → String → String

/-- One invocation of `self.retriever` on a question: a nearest-neighbor
query with fan-out `RETRIEVAL_K`, bumping the invocation counter. -/
def retriever_invoke (c : QAChain) (question : String) (n : Nat) :
    List Document × Nat :=
  (similarity_search c.vectorstore (c.embed question) RETRIEVAL_K, n + 1)

/-- `QAChain._format_docs`: join the retrieved page contents with blank
lines. -/
def format_docs (docs : List Document) : String :=
  String.intercalate "\n\n" (docs.map Document.page_content)

/-- `QAChain.chain.invoke`: the RAG chain built by `_create_chain` —
the retriever piped through `_format_docs` supplies the context, the
prompt and the language model produce the answer. -/
def chain_invoke (c : QAChain) (question : String) (n : Nat) : String × Nat :=
  let r := retriever_invoke c question n
  (c.llm (format_docs r.1) question, r.2)

/-- `QAChain.ask`: invoke the chain and return the response content. -/
def ask (c : QAChain) (question : String) (n : Nat) : String × Nat :=
  chain_invoke c question n

/-- The loop of `ask_with_sources` that extracts unique sources:
`sources` accumulates the output list, `seen` the already-seen set
(modelled as a list with the same members). -/
def extract_sources_loop (docs : List Document) (sources seen : List String) :
    List String :=
  match docs with
  | [] => sources
  | doc :: rest =>
    match doc.source with
    | some s =>
      if s ∈ seen then extract_sources_loop rest sources seen
      else extract_sources_loop rest (sources ++ [s]) (seen ++ [s])
    | none => extract_sources_loop rest sources seen

/-- Extract the distinct source identifiers of the retrieved documents,
in first-occurrence order (the loop of `ask_with_sources`, lines
93-101). -/
def extract_sources (docs : List Document) : List String :=
  extract_sources_loop docs [] []

/-- The value returned by `ask_with_sources`. -/
structure AnswerResult where
  answer : String
  sources : String
deriving DecidableEq

/-- `QAChain.ask_with_sources`: invoke the retriever for the documents,
obtain the answer through `ask` (whose chain invokes the retriever
again), extract the unique sources, and join them with newlines — or
report `"No sources available"` when there are none. -/
def ask_with_sources (c : QAChain) (question : String) (n : Nat) :
    AnswerResult × Nat :=
  let r := retriever_invoke c question n
  let a := ask c question r.2
  let sources := extract_sources r.1
  (⟨a.1, if sources.isEmpty then "No sources available"
         else String.intercalate "\n" sources⟩, a.2)

/-- `QAChain.get_relevant_documents`: one retriever invocation. -/
def get_relevant_documents (c : QAChain) (question : String) (n : Nat) :
    List Document × Nat :=
  retriever_invoke c question n

/-! ### Helper lemmas about persistence -/

/-- Appending an artifact name to a path never yields the path itself. -/
theorem path_append_ne (p : FsPath) (s : String) : p ++ [s] ≠ p := by
  intro h
  have hl := congrArg List.length h
  simp at hl

/-- The two artifact paths of an index directory are distinct. -/
theorem artifact_paths_ne (p : FsPath) :
    p ++ ["index.pkl"] ≠ p ++ ["index.faiss"] := by
  intro h
  have h2 := List.append_cancel_left h
  simp at h2

/-- Zipping the separately stored vectors and documents back together
restores the original entry list. -/
theorem zip_fst_snd (l : List (List Int × Document)) :
    (l.map Prod.fst).zip (l.map Prod.snd) = l := by
  rw [List.zip_map']
  simp

/-- A directory entry appears at the path `save_local` wrote to. -/
theorem save_local_dir (fs : FileSystem) (idx : Index) (p : FsPath) :
    faiss_save_local fs idx p p = some FSEntry.dir := by
  simp [faiss_save_local]

/-- Loading from the path `save_local` wrote to restores the index. -/
theorem save_local_roundtrip (fs : FileSystem) (idx : Index) (p : FsPath) :
    faiss_load_local (faiss_save_local fs idx p) p = Except.ok idx := by
  have hf : faiss_save_local fs idx p (p ++ ["index.faiss"]) =
      some (FSEntry.file (FileData.faissVectors (idx.entries.map Prod.fst))) := by
    simp [faiss_save_local, path_append_ne]
  have hk : faiss_save_local fs idx p (p ++ ["index.pkl"]) =
      some (FSEntry.file (FileData.docstore (idx.entries.map Prod.snd))) := by
    simp [faiss_save_local, path_append_ne, artifact_paths_ne]
  simp [faiss_load_local, hf, hk, zip_fst_snd]

/-- `index_exists` at an explicit path holds exactly when a directory
entry is present there. -/
theorem index_exists_iff_dir (fs : FileSystem) (p : FsPath) :
    index_exists fs (some p) = true ↔ fs p = some FSEntry.dir := by
  cases h : fs p with
  | none => simp [index_exists, os_path_exists, os_path_isdir, h]
  | some e =>
    cases e <;> simp [index_exists, os_path_exists, os_path_isdir, h]

/-! ### Claim C2 -/

/-- A filesystem holding a directory at `["idx"]` that contains the
vector artifact but not the metadata artifact. -/
def halfIndexFS : FileSystem := fun q =>
  if q = ["idx"] then some FSEntry.dir
  else if q = ["idx", "index.faiss"] then
    some (FSEntry.file (FileData.faissVectors []))
  else none

/-- C2 counterexample: at a path holding only one of the two index
artifacts (`index.faiss` present, `index.pkl` absent), `index_exists`
returns `true`, not `false` as the claim requires. -/
theorem index_exists_half_index_counterexample :
    halfIndexFS (["idx"] ++ ["index.faiss"]) =
      some (FSEntry.file (FileData.faissVectors [])) ∧
    halfIndexFS (["idx"] ++ ["index.pkl"]) = none ∧
    index_exists halfIndexFS (some ["idx"]) = true := by
  refine ⟨by decide, by decide, by decide⟩

/-- C2 amended: `index_exists(path)` returns `true` exactly when the
path exists and is a directory; it returns `false` for a path with no
data, but it does not inspect the two artifacts, so it also returns
`true` for a directory missing one or both of them. -/
theorem index_exists_checks_only_directory (fs : FileSystem) (p : FsPath) :
    (index_exists fs (some p) = true ↔ fs p = some FSEntry.dir) ∧
    (fs p = none → index_exists fs (some p) = false) := by
  refine ⟨index_exists_iff_dir fs p, fun h => ?_⟩
  simp [index_exists, os_path_exists, h]

/-- C2 amended witness at concrete inputs: an empty filesystem gives
`false`, a directory with a single artifact gives `true`. -/
theorem index_exists_checks_only_directory_witness :
    index_exists (fun _ => none : FileSystem) (some ["idx"]) = false ∧
    index_exists halfIndexFS (some ["idx"]) = true :=
  ⟨(index_exists_checks_only_directory (fun _ => none) ["idx"]).2 rfl,
    (index_exists_checks_only_directory halfIndexFS ["idx"]).1.mpr (by decide)⟩

/-! ### Claim C5 -/

/-- C5: on a path with no entry, `load_vectorstore` returns the absent
result `Except.ok none` rather than an error; on an existing directory
holding a corrupt index, the error raised by `FAISS.load_local` is
propagated, and that error is distinct from the absent result. -/
theorem load_vectorstore_absent_vs_corrupt (fs : FileSystem) (p : FsPath) :
    (fs p = none → load_vectorstore fs (some p) = Except.ok none) ∧
    (∀ e, fs p = some FSEntry.dir → faiss_load_local fs p = Except.error e →
      load_vectorstore fs (some p) = Except.error e ∧
      (Except.error e : Except LoadError (Option Index)) ≠ Except.ok none) := by
  constructor
  · intro h
    have hne : index_exists fs (some p) = false := by
      simp [index_exists, os_path_exists, h]
    simp [load_vectorstore, hne]
  · intro e hdir herr
    have hex : index_exists fs (some p) = true :=
      (index_exists_iff_dir fs p).mpr hdir
    refine ⟨?_, by simp⟩
    simp [load_vectorstore, hex, herr]

/-- A filesystem with a bare directory at `["idx"]` and nothing else. -/
def bareDirFS : FileSystem := fun q =>
  if q = ["idx"] then some FSEntry.dir else none

/-- C5 witness: a never-created path yields the absent result, a bare
directory (no artifacts, hence corrupt) yields a propagated error. -/
theorem load_vectorstore_absent_vs_corrupt_witness :
    load_vectorstore bareDirFS (some ["nothere"]) = Except.ok none ∧
    load_vectorstore bareDirFS (some ["idx"]) =
      Except.error LoadError.corruptIndex ∧
    (Except.error LoadError.corruptIndex :
      Except LoadError (Option Index)) ≠ Except.ok none := by
  have h1 := (load_vectorstore_absent_vs_corrupt bareDirFS ["nothere"]).1
    (by decide)
  have h2 := (load_vectorstore_absent_vs_corrupt bareDirFS ["idx"]).2
    LoadError.corruptIndex (by decide) (by rfl)
  exact ⟨h1, h2.1, h2.2⟩

/-! ### Claim C7 -/

/-- C7: saving an index and loading it back from the same path succeeds
with the identical index, hence nearest-neighbor retrieval on the
loaded index agrees with the original for every query vector and
fan-out. -/
theorem save_load_roundtrip (fs : FileSystem) (idx : Index) (p : FsPath) :
    load_vectorstore (save_vectorstore fs idx (some p)) (some p) =
      Except.ok (some idx) ∧
    ∀ qv k,
      (match load_vectorstore (save_vectorstore fs idx (some p)) (some p) with
        | Except.ok (some idx2) => similarity_search idx2 qv k
        | _ => []) = similarity_search idx qv k := by
  have hload : load_vectorstore (save_vectorstore fs idx (some p)) (some p) =
      Except.ok (some idx) := by
    have hex : index_exists (faiss_save_local fs idx p) (some p) = true :=
      (index_exists_iff_dir _ p).mpr (save_local_dir fs idx p)
    simp [load_vectorstore, save_vectorstore, hex, save_local_roundtrip]
  refine ⟨hload, fun qv k => ?_⟩
  rw [hload]

/-! ### Claim C9 -/

/-- C9: all three persistence operations derive the same default path,
`FAISS_INDEX_PATH` with its `.pkl` suffix removed; consequently an
index saved with the default path is reported present and loaded back
by the other two operations with their default paths. -/
theorem default_paths_agree :
    pyReplace FAISS_INDEX_PATH ".pkl" "" = "faiss_store_openai" ∧
    ∀ fs idx,
      index_exists (save_vectorstore fs idx none) none = true ∧
      load_vectorstore (save_vectorstore fs idx none) none =
        Except.ok (some idx) := by
  refine ⟨by decide, fun fs idx => ?_⟩
  have hex : index_exists (faiss_save_local fs idx
        [pyReplace FAISS_INDEX_PATH ".pkl" ""])
      (some [pyReplace FAISS_INDEX_PATH ".pkl" ""]) = true :=
    (index_exists_iff_dir _ _).mpr (save_local_dir fs idx _)
  constructor
  · exact hex
  · show load_vectorstore (faiss_save_local fs idx
        [pyReplace FAISS_INDEX_PATH ".pkl" ""])
      (some [pyReplace FAISS_INDEX_PATH ".pkl" ""]) = Except.ok (some idx)
    simp [load_vectorstore, hex, save_local_roundtrip]

/-! ### Helper lemmas about source extraction -/

/-- Membership in the extraction loop's result: an identifier occurs
there exactly when it is in the accumulator or is a source of one of
the remaining documents. -/
theorem extract_loop_mem (docs : List Document) :
    ∀ acc s, s ∈ extract_sources_loop docs acc acc ↔
      s ∈ acc ∨ s ∈ docs.filterMap Document.source := by
  induction docs with
  | nil => intro acc s; simp [extract_sources_loop]
  | cons doc rest ih =>
    intro acc s
    cases hsrc : doc.source with
    | none => simp [extract_sources_loop, hsrc, List.filterMap_cons, ih]
    | some v =>
      by_cases hv : v ∈ acc
      · simp only [extract_sources_loop, hsrc, if_pos hv, List.filterMap_cons,
          ih, List.mem_cons]
        constructor
        · rintro (h | h)
          · exact Or.inl h
          · exact Or.inr (Or.inr h)
        · rintro (h | h | h)
          · exact Or.inl h
          · exact Or.inl (h ▸ hv)
          · exact Or.inr h
      · simp only [extract_sources_loop, hsrc, if_neg hv, List.filterMap_cons,
          ih, List.mem_append, List.mem_singleton, List.mem_cons]
        tauto

/-- The extraction loop preserves distinctness of the accumulator. -/
theorem extract_loop_nodup (docs : List Document) :
    ∀ acc, acc.Nodup → (extract_sources_loop docs acc acc).Nodup := by
  induction docs with
  | nil => intro acc h; exact h
  | cons doc rest ih =>
    intro acc h
    cases hsrc : doc.source with
    | none => simpa [extract_sources_loop, hsrc] using ih acc h
    | some v =>
      by_cases hv : v ∈ acc
      · simpa [extract_sources_loop, hsrc, if_pos hv] using ih acc h
      · have hnd : (acc ++ [v]).Nodup := by
          simp [List.nodup_append, h, hv]
        simpa [extract_sources_loop, hsrc, if_neg hv] using ih (acc ++ [v]) hnd

/-- The extraction loop appends, after the accumulator, a sublist of
the remaining documents' source identifiers — so first-occurrence order
is preserved. -/
theorem extract_loop_sublist (docs : List Document) :
    ∀ acc, ∃ t, extract_sources_loop docs acc acc = acc ++ t ∧
      t.Sublist (docs.filterMap Document.source) := by
  induction docs with
  | nil => intro acc; exact ⟨[], by simp [extract_sources_loop]⟩
  | cons doc rest ih =>
    intro acc
    cases hsrc : doc.source with
    | none =>
      obtain ⟨t, ht, hsub⟩ := ih acc
      exact ⟨t, by simpa [extract_sources_loop, hsrc] using ht,
        by simpa [List.filterMap_cons, hsrc] using hsub⟩
    | some v =>
      by_cases hv : v ∈ acc
      · obtain ⟨t, ht, hsub⟩ := ih acc
        refine ⟨t, by simpa [extract_sources_loop, hsrc, if_pos hv] using ht, ?_⟩
        simpa [List.filterMap_cons, hsrc] using hsub.cons v
      · obtain ⟨t, ht, hsub⟩ := ih (acc ++ [v])
        refine ⟨v :: t, ?_, ?_⟩
        · simpa [extract_sources_loop, hsrc, if_neg hv, List.append_assoc]
            using ht
        · simpa [List.filterMap_cons, hsrc] using hsub.cons₂ v

/-- Documents without source metadata contribute nothing to the loop. -/
theorem extract_loop_all_none (docs : List Document)
    (h : ∀ d ∈ docs, d.source = none) :
    ∀ acc seen, extract_sources_loop docs acc seen = acc := by
  induction docs with
  | nil => intro acc seen; rfl
  | cons doc rest ih =>
    intro acc seen
    have hd : doc.source = none := h doc (List.mem_cons_self doc rest)
    have hr : ∀ d ∈ rest, d.source = none :=
      fun d hdm => h d (List.mem_cons_of_mem doc hdm)
    simp [extract_sources_loop, hd, ih hr]

/-! ### Claim C3 -/

/-- C3: the source list of `ask_with_sources` holds exactly the
distinct source identifiers of the retrieved chunks, in
first-occurrence order: on identifiers `[A, B, A, C]` it is
`[A, B, C]`; in general it is duplicate-free, a sublist of the
retrieved identifier sequence (so order is preserved), and has the same
members; and the returned `sources` field is built from exactly this
list. -/
theorem sources_distinct_first_occurrence :
    extract_sources [Document.mk "" (some "A"), Document.mk "" (some "B"),
      Document.mk "" (some "A"), Document.mk "" (some "C")] =
      ["A", "B", "C"] ∧
    (∀ docs : List Document,
      (extract_sources docs).Nodup ∧
      (extract_sources docs).Sublist (docs.filterMap Document.source) ∧
      (∀ s, s ∈ extract_sources docs ↔ s ∈ docs.filterMap Document.source)) ∧
    (∀ c q n, (ask_with_sources c q n).1.sources =
      (let ss := extract_sources
        (similarity_search c.vectorstore (c.embed q) RETRIEVAL_K)
       if ss.isEmpty then "No sources available"
       else String.intercalate "\n" ss)) := by
  refine ⟨by decide, fun docs => ⟨?_, ?_, ?_⟩, fun c q n => rfl⟩
  · exact extract_loop_nodup docs [] List.nodup_nil
  · obtain ⟨t, ht, hsub⟩ := extract_loop_sublist docs []
    simpa [extract_sources, ht]
  · intro s
    simpa using extract_loop_mem docs [] s

/-! ### Claim C6 -/

/-- C6: when none of the retrieved chunks carries a source identifier,
`ask_with_sources` reports the explicit sentinel
`"No sources available"`, which is distinct from the empty string that
joining an empty list would give. -/
theorem no_sources_sentinel (c : QAChain) (q : String) (n : Nat)
    (h : ∀ d ∈ similarity_search c.vectorstore (c.embed q) RETRIEVAL_K,
      d.source = none) :
    (ask_with_sources c q n).1.sources = "No sources available" ∧
    "No sources available" ≠ "" := by
  have hs : extract_sources
      (similarity_search c.vectorstore (c.embed q) RETRIEVAL_K) = [] :=
    extract_loop_all_none _ h [] []
  refine ⟨?_, by decide⟩
  simp [ask_with_sources, ask, chain_invoke, retriever_invoke, hs]

/-- A chain over an empty index, with trivial external collaborators. -/
def emptyChain : QAChain :=
  ⟨⟨[]⟩, fun _ => [], fun _ _ => ""⟩

/-- C6 witness: over the empty index nothing is retrieved, so no chunk
has a source and the sentinel is returned. -/
theorem no_sources_sentinel_witness :
    (ask_with_sources emptyChain "q" 0).1.sources = "No sources available" ∧
    "No sources available" ≠ "" :=
  no_sources_sentinel emptyChain "q" 0 (by decide)

/-! ### Claim C1 -/

/-- C1 counterexample: one call of `ask_with_sources`, started with a
retriever-invocation count of 0, ends with a count of 2 — the retriever
is queried once directly for the sources and a second time inside the
answer chain — so retrieval is not performed exactly once. -/
theorem retrieval_not_called_once_counterexample :
    (ask_with_sources emptyChain "q" 0).2 = 2 ∧
    (ask_with_sources emptyChain "q" 0).2 ≠ 1 := by
  exact ⟨rfl, by decide⟩

/-- C1 amended: `ask_with_sources` invokes the nearest-neighbor
retrieval twice — once directly and once inside the answer chain — but
both invocations query the same index with the same question, so the
context block given to the language model and the extracted source list
are both derived from the same deterministic retrieval result, and the
sources correspond exactly to the chunks that produced the context. -/
theorem retrieval_twice_same_query (c : QAChain) (q : String) (n : Nat) :
    (ask_with_sources c q n).2 = n + 2 ∧
    (ask_with_sources c q n).1.answer =
      c.llm (format_docs
        (similarity_search c.vectorstore (c.embed q) RETRIEVAL_K)) q ∧
    (ask_with_sources c q n).1.sources =
      (let ss := extract_sources
        (similarity_search c.vectorstore (c.embed q) RETRIEVAL_K)
       if ss.isEmpty then "No sources available"
       else String.intercalate "\n" ss) :=
  ⟨rfl, rfl, rfl⟩

/-! ### Claim C8 -/

/-- C8: `load_urls` issues the single whole-batch loader call and
forwards its outcome unchanged — a loader failure is surfaced to the
caller as the same error (no retry, no masking), and a success returns
exactly the loader's document list (no filtering, no partial list). -/
theorem load_urls_propagates
    (fetch : List String → Except FetchError (List Document))
    (urls : List String) :
    (∀ e, fetch urls = Except.error e →
      load_urls fetch urls = Except.error e) ∧
    (∀ docs, fetch urls = Except.ok docs →
      load_urls fetch urls = Except.ok docs) :=
  ⟨fun _ h => h, fun _ h => h⟩

/-- C8 witness: a failing batch raises the same error; a successful
batch returns the same documents. -/
theorem load_urls_propagates_witness :
    load_urls (fun _ => Except.error (FetchError.urlFailure "u")) ["u"] =
      Except.error (FetchError.urlFailure "u") ∧
    load_urls (fun _ => Except.ok ([Document.mk "d" (some "u")])) ["u"] =
      Except.ok [Document.mk "d" (some "u")] :=
  ⟨(load_urls_propagates _ ["u"]).1 _ rfl,
    (load_urls_propagates _ ["u"]).2 _ rfl⟩

/-! ### Claim C10 -/

/-- C10: `process_urls` is the composition of `load_urls`,
`split_documents` and `create_vectorstore`: a loader failure is
propagated; on success the document count is the length of the loaded
list, the chunk count is the length of the chunks split from exactly
those documents, the vector store is built from exactly those chunks,
and the filesystem is written through `save_vectorstore` precisely when
`save_index` is set. -/
theorem process_urls_is_composition
    (fetch : List String → Except FetchError (List Document))
    (embed : String → List Int) (fs : FileSystem) (urls : List String)
    (save_index : Bool) :
    (∀ e, load_urls fetch urls = Except.error e →
      process_urls fetch embed fs urls save_index = Except.error e) ∧
    (∀ docs, load_urls fetch urls = Except.ok docs →
      process_urls fetch embed fs urls save_index =
        Except.ok ((create_vectorstore embed (split_documents docs),
          docs.length, (split_documents docs).length),
          if save_index then
            save_vectorstore fs (create_vectorstore embed (split_documents docs))
              none
          else fs)) := by
  constructor
  · intro e h
    simp [process_urls, h]
  · intro docs h
    simp [process_urls, h]

/-- C10 witness: a concrete successful pipeline run without saving, and
a concrete failing run. -/
theorem process_urls_is_composition_witness :
    process_urls (fun _ => Except.ok [Document.mk "hello" (some "u")])
      (fun _ => []) (fun _ => none) ["u"] false =
      Except.ok ((create_vectorstore (fun _ => [])
        (split_documents [Document.mk "hello" (some "u")]),
        1, (split_documents [Document.mk "hello" (some "u")]).length),
        (fun _ => none : FileSystem)) ∧
    process_urls (fun _ => Except.error (FetchError.urlFailure "u"))
      (fun _ => []) (fun _ => none) ["u"] true =
      Except.error (FetchError.urlFailure "u") :=
  ⟨(process_urls_is_composition _ _ _ ["u"] false).2 _ rfl,
    (process_urls_is_composition _ _ _ ["u"] true).1 _ rfl⟩

/-! ### Helper lemmas about splitting -/

/-- Closed form of the splitter: chunk `k` starts at offset
`k * (S - O)` and extends for at most `S` characters, so the chunk
boundaries are a function of the input and the parameters alone. -/
theorem splitChunks_formula (S O : Nat) (hO : O < S) :
    ∀ (n : Nat) (l : List Char), l.length ≤ n →
      splitChunks S O l = (List.range (chunkCount S O l.length)).map
        (fun k => (l.drop (k * (S - O))).take S) := by
  intro n
  induction n with
  | zero =>
    intro l hl
    have hle : l.length ≤ S := by omega
    have hr1 : List.range 1 = [0] := rfl
    rw [splitChunks, chunkCount, if_pos (Or.inl hle), if_pos (Or.inl hle), hr1]
    simp [List.take_of_length_le hle]
  | succ n ih =>
    intro l hl
    rw [splitChunks, chunkCount]
    by_cases hle : l.length ≤ S
    · have hr1 : List.range 1 = [0] := rfl
      rw [if_pos (Or.inl hle), if_pos (Or.inl hle), hr1]
      simp [List.take_of_length_le hle]
    · have hcond : ¬(l.length ≤ S ∨ S ≤ O) := by omega
      rw [if_neg hcond, if_neg hcond]
      have hrec := ih (l.drop (S - O)) (by simp [List.length_drop]; omega)
      rw [hrec, List.length_drop, Nat.add_comm 1 _, List.range_succ_eq_map,
        List.map_cons, List.map_map]
      congr 1
      · simp
      · apply List.map_congr_left
        intro k _
        simp only [Function.comp_apply]
        rw [List.drop_drop]
        have harg : S - O + k * (S - O) = Nat.succ k * (S - O) := by
          rw [Nat.succ_mul]
          exact Nat.add_comm _ _
        rw [harg]

/-- Every chunk with a successor is a full window: if chunk `i` is not
the final chunk, the input extends past position `S + i * (S - O)`. -/
theorem chunkCount_full (S O : Nat) (hO : O < S) :
    ∀ L, ∀ i, i + 1 < chunkCount S O L → S + i * (S - O) < L := by
  intro L
  induction L using Nat.strong_induction_on with
  | _ L ih =>
    intro i hi
    rw [chunkCount] at hi
    by_cases hle : L ≤ S ∨ S ≤ O
    · rw [if_pos hle] at hi
      omega
    · rw [if_neg hle] at hi
      push_neg at hle
      cases i with
      | zero => omega
      | succ j =>
        have hj := ih (L - (S - O)) (by omega) j (by omega)
        have hm : (j + 1) * (S - O) = j * (S - O) + (S - O) := by
          rw [Nat.succ_mul]
        omega

/-! ### Claim C4 -/

/-- C4: for chunk size `S` and overlap `O` with `O < S` — as the
configured `CHUNK_OVERLAP < CHUNK_SIZE` — every chunk is at most `S`
characters long; every chunk except possibly the final one has length
exactly `S` and shares its last `O` characters with the first `O`
characters of the next chunk (overlap of exactly `O`); and the chunk
boundaries are the fixed windows at offsets `k * (S - O)`, so splitting
the same text with the same parameters always yields identical
boundaries. -/
theorem split_bounds_overlap_stable (S O : Nat) (hO : O < S) (l : List Char) :
    CHUNK_OVERLAP < CHUNK_SIZE ∧
    (∀ c ∈ splitChunks S O l, c.length ≤ S) ∧
    List.Chain' (fun a b => a.length = S ∧ a.drop (S - O) = b.take O)
      (splitChunks S O l) ∧
    splitChunks S O l = (List.range (chunkCount S O l.length)).map
      (fun k => (l.drop (k * (S - O))).take S) := by
  have hform := splitChunks_formula S O hO l.length l (Nat.le_refl _)
  refine ⟨by decide, ?_, ?_, hform⟩
  · intro c hc
    rw [hform] at hc
    simp only [List.mem_map] at hc
    obtain ⟨k, _, hk⟩ := hc
    rw [← hk, List.length_take]
    exact Nat.min_le_left _ _
  · rw [hform, List.chain'_map]
    cases hn : chunkCount S O l.length with
    | zero => simp
    | succ m =>
      rw [List.chain'_range_succ]
      intro i hi
      have hfull : S + i * (S - O) < l.length :=
        chunkCount_full S O hO l.length i (by omega)
      constructor
      · simp only [List.length_take, List.length_drop]
        omega
      · rw [List.drop_take, List.drop_drop, List.take_take]
        have h1 : S - (S - O) = O := by omega
        have h2 : min O S = O := Nat.min_eq_left (Nat.le_of_lt hO)
        have h3 : i * (S - O) + (S - O) = (i + 1) * (S - O) := by
          rw [Nat.succ_mul]
        rw [h1, h2, h3]

/-- C4 witness: the splitter at `S = 10`, `O = 2` on the spec's example
text `"Alpha Beta. Gamma Delta."`. -/
theorem split_bounds_overlap_stable_witness :
    CHUNK_OVERLAP < CHUNK_SIZE ∧
    (∀ c ∈ splitChunks 10 2 "Alpha Beta. Gamma Delta.".data,
      c.length ≤ 10) ∧
    List.Chain' (fun a b => a.length = 10 ∧ a.drop (10 - 2) = b.take 2)
      (splitChunks 10 2 "Alpha Beta. Gamma Delta.".data) ∧
    splitChunks 10 2 "Alpha Beta. Gamma Delta.".data =
      (List.range
        (chunkCount 10 2 "Alpha Beta. Gamma Delta.".data.length)).map
        (fun k => ("Alpha Beta. Gamma Delta.".data.drop (k * (10 - 2))).take 10) :=
  split_bounds_overlap_stable 10 2 (by decide) "Alpha Beta. Gamma Delta.".data

end AskURL
